import Mathlib

/-!
Verification of the response-normalization logic of the Streamlit financial
dashboard (`finance_project.py`).  The script's endpoint branches reshape a
parsed JSON response into a pandas DataFrame; this file gives a shallow
embedding of those branches and settles the specification's claims about
them.  JSON values are modelled by an inductive type (objects as ordered
association lists, matching Python's insertion-ordered `dict`); pandas
DataFrames by a `Frame` of ordered rows; floats by `ℚ` (IEEE rounding is not
modelled); and an uncaught Python exception by an explicit `crash` outcome.
-/

namespace FinanceDashboard

/-- A parsed JSON value as produced by `req.json()`.  Objects keep the
source's insertion order, as Python's `json.loads` does.  Arrays and
booleans do not occur in any claim and are omitted. -/
inductive Json where
  | null
  | str (s : String)
  | num (q : ℚ)
  | obj (fields : List (String × Json))

/-- Python truthiness (`if raw_data:` at lines 94, 121, 161, 190):
`None`, `""`, `0` and `{}` are falsy, everything else truthy. -/
def truthy : Json → Bool
  | .null => false
  | .str s => !s.isEmpty
  | .num q => decide (q ≠ 0)
  | .obj l => !l.isEmpty

/-- Key lookup in a string-keyed association list (Python `d[k]` /
`d.get(k)`), first match.  Used both for JSON objects and for the row table
of a frame under construction. -/
def lookupField {α : Type} : List (String × α) → String → Option α
  | [], _ => none
  | p :: rest, key => if p.1 = key then some p.2 else lookupField rest key

/-- `'needle' in haystack` for Python strings: substring containment.
Used to model `'Time Series (Daily)' in raw_data` when the response is a
JSON string rather than an object. -/
def containsSub (pat : List Char) : List Char → Bool
  | [] => pat.isEmpty
  | c :: rest => pat.isPrefixOf (c :: rest) || containsSub pat rest

/-- Python `s.split('. ')`, specialised to the two-character separator used
at line 102 (`c.split('. ')`). -/
def pySplitDotSpace : List Char → List (List Char)
  | [] => [[]]
  | [c] => [[c]]
  | a :: b :: rest =>
    if a = '.' ∧ b = ' ' then [] :: pySplitDotSpace rest
    else
      match pySplitDotSpace (b :: rest) with
      | [] => [[a]]
      | t :: ts => (a :: t) :: ts

/-- Line 102: `c.split('. ')[1]`.  `none` models the `IndexError` raised
when the name contains no `'. '` separator (the list has fewer than two
parts). -/
def renameColumn (c : String) : Option String :=
  ((pySplitDotSpace c.data).get? 1).map (fun l => ⟨l⟩)

/-- The rename of line 102 applied to a whole column list
(`[c.split('. ')[1] for c in df.columns]`); `none` when any element
raises. -/
def colsRename : List String → Option (List String)
  | [] => some []
  | c :: cs =>
    match renameColumn c, colsRename cs with
    | some n, some ns => some (n :: ns)
    | _, _ => none

/-! ### Numeric coercion: `pd.to_numeric(errors='coerce')` (lines 103, 169, 198)

Cell strings are parsed as decimal numerals (optional sign, optional single
decimal point); anything unparseable — and `None` — becomes the missing
marker `none` (pandas `NaN`).  Exponent notation and surrounding whitespace,
which pandas would also accept, are not exercised by any claim and are not
modelled. -/

/-- Split a character list at every `'.'` (used by the decimal parser). -/
def splitOnDot : List Char → List (List Char)
  | [] => [[]]
  | c :: rest =>
    if c = '.' then [] :: splitOnDot rest
    else
      match splitOnDot rest with
      | [] => [[c]]
      | t :: ts => (c :: t) :: ts

/-- Numeric value of a digit character. -/
def charVal (c : Char) : ℕ := c.toNat - 48

/-- Value of a digit string, most significant first. -/
def digitsVal (l : List Char) : ℕ :=
  l.foldl (fun a c => a * 10 + charVal c) 0

/-- All characters are decimal digits. -/
def allDigits (l : List Char) : Bool := l.all (·.isDigit)

/-- Parse an unsigned decimal numeral: `"150"`, `"100.5"`, `"1."`, `".5"`. -/
def parseUnsignedChars (l : List Char) : Option ℚ :=
  match splitOnDot l with
  | [i] => if !i.isEmpty && allDigits i then some ((digitsVal i : ℚ)) else none
  | [i, f] =>
    if (i.isEmpty || allDigits i) && (f.isEmpty || allDigits f)
        && !(i.isEmpty && f.isEmpty) then
      some ((digitsVal i : ℚ) + (digitsVal f : ℚ) / 10 ^ f.length)
    else none
  | _ => none

/-- Parse a signed decimal numeral, the model of `float(s)` as invoked by
`pd.to_numeric`. -/
def parseDecimal (s : String) : Option ℚ :=
  match s.data with
  | '-' :: rest => (parseUnsignedChars rest).map Neg.neg
  | '+' :: rest => parseUnsignedChars rest
  | l => parseUnsignedChars l

/-- Coercion of one cell value: numbers pass through, numeric strings are
parsed, everything else (non-numeric string, `None`, nested object) becomes
the missing marker `none`.  Total: `errors='coerce'` never raises. -/
def coerceVal : Json → Option ℚ
  | .num q => some q
  | .str s => parseDecimal s
  | .null => none
  | .obj _ => none

/-- Coercion of a DataFrame cell; an absent field (`NaN` introduced by
`from_dict` for a row missing a column) stays missing. -/
def coerceCell : Option Json → Option ℚ
  | none => none
  | some v => coerceVal v

/-! ### DataFrame construction (`pd.DataFrame.from_dict(..., orient='index')`) -/

/-- The normalized table: ordered column labels and ordered rows, each row
a key (the source object's key) with one coerced cell per column. -/
structure Frame where
  cols : List String
  rows : List (String × List (Option ℚ))
deriving DecidableEq

/-- Failure modes of the reshaping code.  Each corresponds to an uncaught
Python exception, not to a reported error value: the script has no
normalization error type. -/
inductive NormErr where
  /-- a row value shape pandas cannot tabulate for this branch: a
  non-mapping value after a mapping first value (`_from_nested_dict`
  raises `AttributeError`), or a mapping value after a non-mapping first
  value (pandas builds one object column and `pd.to_numeric` then raises
  `TypeError` on the mapping cell) -/
  | badPayload
  /-- line 102 raises: `IndexError` on a label without the `'. '`
  separator, or `AttributeError` on the integer label `0` of the
  list-of-scalars construction path -/
  | renameFail
  /-- lines 168/197 `ValueError`: `df.columns = [name]` with ≠ 1 column -/
  | colMismatch
deriving DecidableEq

/-- The nested path of `from_dict(..., orient='index')`: taken when the
FIRST value is a mapping, in which case every value must be a mapping
(`_from_nested_dict` iterates `s.items()` and raises otherwise). -/
def rowObjs? : List (String × Json) → Option (List (String × List (String × Json)))
  | [] => some []
  | (k, .obj o) :: rest => (rowObjs? rest).map (fun r => (k, o) :: r)
  | _ => none

/-- `True` when no value is a mapping: the list-of-scalars construction
path of `from_dict(..., orient='index')`. -/
def allScalarRows : List (String × Json) → Bool
  | [] => true
  | (_, .obj _) :: _ => false
  | _ :: rest => allScalarRows rest

/-- Append a label unless already present (first-seen order). -/
def addCol (acc : List String) (k : String) : List String :=
  if k ∈ acc then acc else acc ++ [k]

/-- Column labels of the nested-path frame: union of all row field names in
row-major first-seen order, as `_from_nested_dict` encounters them. -/
def unionCols (rows : List (String × List (String × Json))) : List String :=
  rows.foldl (fun acc r => r.2.foldl (fun a kv => addCol a kv.1) acc) []

/-- One pass of the index union: append (in row order) the keys of the rows
that carry column `c`. -/
def rowsWithCol (c : String) (acc : List String)
    (rows : List (String × List (String × Json))) : List String :=
  rows.foldl (fun a r => if (lookupField r.2 c).isSome then addCol a r.1 else a) acc

/-- The index of the nested-path frame: pandas builds one dict per column
(`_from_nested_dict`) and unions their keys, so the index is the
column-major first-seen union of the per-column row keys.  A top-level key
whose sub-mapping is empty never appears in any column and is dropped;
ragged rows can appear out of insertion order. -/
def indexUnion (cols : List String)
    (rows : List (String × List (String × Json))) : List String :=
  cols.foldl (fun acc c => rowsWithCol c acc rows) []

/-- Lines 98–103 (TIME_SERIES_DAILY): `from_dict(ts, orient='index')`, then
`df.columns = [c.split('. ')[1] for c in df.columns]`, then
`df.apply(pd.to_numeric, errors='coerce')`.  Cells are read off the
original field names; only the labels are renamed.  When the first value is
not a mapping, pandas instead builds a single column labelled by the
integer `0`, on which line 102 raises (`AttributeError`), so the scalar
path always fails the rename stage. -/
def tsPayloadNormalize (entries : List (String × Json)) : Except NormErr Frame :=
  match entries with
  | [] => .ok ⟨[], []⟩
  | (_, .obj _) :: _ =>
    match rowObjs? entries with
    | none => .error .badPayload
    | some rows =>
      match colsRename (unionCols rows) with
      | none => .error .renameFail
      | some newCols =>
        .ok ⟨newCols,
          (indexUnion (unionCols rows) rows).map (fun k =>
            (k, (unionCols rows).map (fun c =>
              coerceCell ((lookupField rows k).bind (fun r => lookupField r c)))))⟩
  | _ :: _ => .error .renameFail

/-- Lines 166–169 / 195–198 (SMA / RSI): `from_dict(ts, orient='index')`,
then `df.columns = [the_endpoint]` (a `ValueError` unless the frame has
exactly one column), then numeric coercion.  When the first value is not a
mapping and no value is a mapping, pandas builds a single column-`0` frame
with one row per key; `df.columns = [name]` then succeeds and the values
are coerced, so the branch renders. -/
def indicatorPayloadNormalize (name : String) (entries : List (String × Json)) :
    Except NormErr Frame :=
  match entries with
  | [] => .error .colMismatch
  | (_, .obj _) :: _ =>
    match rowObjs? entries with
    | none => .error .badPayload
    | some rows =>
      if (unionCols rows).length = 1 then
        .ok ⟨[name],
          (indexUnion (unionCols rows) rows).map (fun k =>
            (k, (unionCols rows).map (fun c =>
              coerceCell ((lookupField rows k).bind (fun r => lookupField r c)))))⟩
      else .error .colMismatch
  | _ :: _ =>
    if allScalarRows entries then
      .ok ⟨[name], entries.map (fun kv => (kv.1, [coerceVal kv.2]))⟩
    else .error .badPayload

/-- Line 108: `df['close']` — select every column labelled `"close"`
(`none` models the `KeyError` when there is no such column); the chart
receives every row. -/
def closeChart (f : Frame) : Option (List (String × List (Option ℚ))) :=
  if ((List.range f.cols.length).filter (fun i => f.cols.get? i = some "close")).isEmpty
  then none
  else some (f.rows.map (fun r =>
    (r.1, ((List.range f.cols.length).filter
        (fun i => f.cols.get? i = some "close")).map (fun i => (r.2.get? i).join))))

/-! ### Endpoint branches -/

/-- Outcome of the TIME_SERIES_DAILY branch (lines 85–112). -/
inductive TSDOut where
  /-- `raw_data` falsy (fetch returned `None`/empty): nothing rendered -/
  | silent
  /-- lines 110–112: `st.warning(...)` and `st.json(raw_data)` -/
  | weird (payload : Json)
  /-- an uncaught exception ends the script run -/
  | crash
  /-- lines 105–108: `st.dataframe(df.head(20))` and `st.line_chart(df['close'])` -/
  | shown (table : Frame) (chart : List (String × List (Option ℚ)))

/-- The container key of the TIME_SERIES_DAILY branch (line 95). -/
def timeSeriesDailyKey : String := "Time Series (Daily)"

/-- Lines 94–112: the TIME_SERIES_DAILY branch, from `if raw_data:` to the
rendered widgets, for an already-fetched response `raw` (`Json.null` models
a fetch that returned `None`). -/
def timeSeriesDailyBranch (raw : Json) : TSDOut :=
  if truthy raw then
    match raw with
    | .obj fields =>
      match lookupField fields timeSeriesDailyKey with
      | none => .weird (.obj fields)
      | some (.obj entries) =>
        match tsPayloadNormalize entries with
        | .error _ => .crash
        | .ok f =>
          match closeChart f with
          | none => .crash
          | some ch => .shown ⟨f.cols, f.rows.take 20⟩ ch
      | some _ => .crash
    | .str s =>
      if containsSub timeSeriesDailyKey.data s.data then .crash else .weird (.str s)
    | _ => .crash
  else .silent

/-- The single-column raw table rendered by the GLOBAL_QUOTE branch:
`pd.DataFrame([quote]).T` with `df.columns = ['Value']` — one row per quote
field, values left as they came (no rename, no numeric coercion). -/
structure RawTable where
  cols : List String
  rows : List (String × List Json)

/-- Outcome of the GLOBAL_QUOTE branch (lines 114–130). -/
inductive GQOut where
  | silent
  /-- lines 128–130: `st.error(...)` and `st.json(data)` -/
  | errorShown (payload : Json)
  | crash
  /-- line 127: `st.table(df)` -/
  | table (t : RawTable)
  /-- a truthy non-mapping quote value: `pd.DataFrame([v]).T` (integer index) -/
  | scalarTable (v : Json)

/-- Lines 121–130: the GLOBAL_QUOTE branch for an already-fetched
response. -/
def globalQuoteBranch (raw : Json) : GQOut :=
  if truthy raw then
    match raw with
    | .obj fields =>
      if truthy ((lookupField fields "Global Quote").getD (.obj [])) then
        match (lookupField fields "Global Quote").getD (.obj []) with
        | .obj qf => .table ⟨["Value"], qf.map (fun kv => (kv.1, [kv.2]))⟩
        | v => .scalarTable v
      else .errorShown (.obj fields)
    | _ => .crash
  else .silent

/-- Outcome of the SMA / RSI branches (lines 161–176 and 190–205). -/
inductive IndOut where
  | silent
  /-- `st.error(...)` and `st.json(data)` (lines 174–176, 203–205) -/
  | errorShown (payload : Json)
  | crash
  /-- `st.dataframe(df.head(20))` and `st.line_chart(df)`: the chart gets
  the full frame -/
  | shown (table : Frame) (chart : Frame)

/-- `indicator_key = f'Technical Analysis: {the_endpoint}'` (lines 162, 191). -/
def indicatorKey (name : String) : String := "Technical Analysis: " ++ name

/-- Lines 161–176 / 190–205: the shared shape of the SMA and RSI branches,
`name` being the endpoint identifier. -/
def indicatorBranch (name : String) (raw : Json) : IndOut :=
  if truthy raw then
    match raw with
    | .obj fields =>
      if truthy ((lookupField fields (indicatorKey name)).getD (.obj [])) then
        match (lookupField fields (indicatorKey name)).getD (.obj []) with
        | .obj entries =>
          match indicatorPayloadNormalize name entries with
          | .error _ => .crash
          | .ok f => .shown ⟨f.cols, f.rows.take 20⟩ f
        | _ => .crash
      else .errorShown (.obj fields)
    | _ => .crash
  else .silent

/-- The SMA branch (lines 149–176). -/
def smaBranch : Json → IndOut := indicatorBranch "SMA"

/-- The RSI branch (lines 178–205). -/
def rsiBranch : Json → IndOut := indicatorBranch "RSI"

/-! ### API-key resolution and top-level dispatch (lines 6–20, 85–233) -/

/-- How the key of lines 6–20 was resolved. -/
inductive KeyOutcome where
  /-- line 9: `st.secrets["alphavantage"]["api_key"]` succeeded -/
  | cloud (key : String)
  /-- line 15: `from API_KEY import api_key` succeeded -/
  | localFile (key : String)
  /-- lines 19–20: `st.error(...)`; `st.stop()` -/
  | fatal
deriving DecidableEq

/-- Lines 6–20: try the hosted secret store first, then the local file;
`none` for a source models the exception its access raises
(`StreamlitAPIException`/`KeyError`, resp. `ImportError`). -/
def resolveApiKey (cloudSecret localModule : Option String) : KeyOutcome :=
  match cloudSecret with
  | some k => .cloud k
  | none =>
    match localModule with
    | some k => .localFile k
    | none => .fatal

/-- Output of the endpoint dispatch (lines 85–233). -/
inductive PageOut where
  | tsd (o : TSDOut)
  | gq (o : GQOut)
  | ind (o : IndOut)
  /-- INCOME_STATEMENT, OVERVIEW and the not-implemented placeholder; their
  internals decide no claim and are not modelled further -/
  | otherEndpoint (name : String)

/-- The `if the_endpoint == ...` chain (lines 85, 114, 149, 178, ...). -/
def dispatchEndpoint (endpoint : String) (raw : Json) : PageOut :=
  if endpoint = "TIME_SERIES_DAILY" then .tsd (timeSeriesDailyBranch raw)
  else if endpoint = "GLOBAL_QUOTE" then .gq (globalQuoteBranch raw)
  else if endpoint = "SMA" then .ind (smaBranch raw)
  else if endpoint = "RSI" then .ind (rsiBranch raw)
  else .otherEndpoint endpoint

/-- The whole script run: key resolution first; `st.stop()` (modelled by
`none`) prevents any endpoint logic from running. -/
def appRun (cloudSecret localModule : Option String) (endpoint : String)
    (raw : Json) : Option PageOut :=
  match resolveApiKey cloudSecret localModule with
  | .fatal => none
  | _ => some (dispatchEndpoint endpoint raw)

/-! ### Auxiliary definitions used only to state and prove properties -/

/-- Whether the character list contains the separator `'. '` somewhere. -/
def hasSep : List Char → Bool
  | [] => false
  | [_] => false
  | a :: b :: rest => if a = '.' ∧ b = ' ' then true else hasSep (b :: rest)

/-- Decimal digit string of `n`, most significant first, with explicit fuel
so that it unfolds by computation. -/
def renderNatAux : ℕ → ℕ → List Char
  | 0, _ => []
  | fuel + 1, n =>
    if n < 10 then [Char.ofNat (48 + n)]
    else renderNatAux fuel (n / 10) ++ [Char.ofNat (48 + n % 10)]

/-- Canonical decimal digit string of a natural number, an "already-numeric
string" in the sense of the specification. -/
def renderNat (n : ℕ) : List Char := renderNatAux (n + 1) n

/-! ## Helper lemmas -/

theorem digitsVal_append_digit (a : List Char) (c : Char) :
    digitsVal (a ++ [c]) = digitsVal a * 10 + charVal c := by
  simp [digitsVal, List.foldl_append]

theorem isDigit_not_special (c : Char) (h : c.isDigit = true) :
    c ≠ '.' ∧ c ≠ '-' ∧ c ≠ '+' := by
  refine ⟨?_, ?_, ?_⟩ <;> rintro rfl <;> exact absurd h (by decide)

theorem charVal_ofNat_digit : ∀ d, d < 10 →
    charVal (Char.ofNat (48 + d)) = d ∧ (Char.ofNat (48 + d)).isDigit = true := by
  decide

theorem renderNatAux_spec : ∀ fuel n, n < fuel →
    digitsVal (renderNatAux fuel n) = n ∧ allDigits (renderNatAux fuel n) = true ∧
      renderNatAux fuel n ≠ []
  | 0, n, h => absurd h (by omega)
  | fuel + 1, n, h => by
    by_cases h10 : n < 10
    · have hc := charVal_ofNat_digit n h10
      simp only [renderNatAux, if_pos h10]
      refine ⟨?_, ?_, by simp⟩
      · simp [digitsVal, hc.1]
      · simp [allDigits, hc.2]
    · have hdiv : n / 10 < n := Nat.div_lt_self (by omega) (by omega)
      have ih := renderNatAux_spec fuel (n / 10) (by omega)
      have hm : n % 10 < 10 := Nat.mod_lt _ (by omega)
      have hc := charVal_ofNat_digit (n % 10) hm
      refine ⟨?_, ?_, ?_⟩
      · simp only [renderNatAux, if_neg h10]
        rw [digitsVal_append_digit, ih.1, hc.1]
        omega
      · simp only [renderNatAux, if_neg h10, allDigits, List.all_append]
        simp only [allDigits] at ih
        simp [ih.2.1, hc.2]
      · simp [renderNatAux, if_neg h10]

theorem renderNat_spec (n : ℕ) :
    digitsVal (renderNat n) = n ∧ allDigits (renderNat n) = true ∧
      renderNat n ≠ [] :=
  renderNatAux_spec (n + 1) n (by omega)

theorem splitOnDot_noDot : ∀ l : List Char, (∀ c ∈ l, c ≠ '.') →
    splitOnDot l = [l]
  | [], _ => rfl
  | c :: rest, h => by
    have hc : c ≠ '.' := h c (.head _)
    have ih := splitOnDot_noDot rest (fun x hx => h x (.tail _ hx))
    simp only [splitOnDot]
    rw [if_neg hc, ih]

theorem splitOnDot_append : ∀ (a b : List Char), (∀ c ∈ a, c ≠ '.') →
    splitOnDot (a ++ '.' :: b) = a :: splitOnDot b
  | [], b, _ => by simp [splitOnDot]
  | c :: a', b, ha => by
    have hc : c ≠ '.' := ha c (.head _)
    have ih := splitOnDot_append a' b (fun x hx => ha x (.tail _ hx))
    simp only [List.cons_append, splitOnDot]
    rw [if_neg hc, show a'.append ('.' :: b) = a' ++ '.' :: b from rfl, ih]

theorem allDigits_noDot (l : List Char) (h : allDigits l = true) :
    ∀ c ∈ l, c ≠ '.' := by
  intro c hc
  have := (List.all_eq_true.mp h) c hc
  exact (isDigit_not_special c this).1

theorem parseUnsignedChars_int (l : List Char) (hne : l ≠ [])
    (hd : allDigits l = true) :
    parseUnsignedChars l = some ((digitsVal l : ℚ)) := by
  unfold parseUnsignedChars
  rw [splitOnDot_noDot l (allDigits_noDot l hd)]
  simp [hne, hd]

theorem parseUnsignedChars_dec (i f : List Char) (hne : i ≠ [])
    (hi : allDigits i = true) (hf : allDigits f = true) :
    parseUnsignedChars (i ++ '.' :: f) =
      some ((digitsVal i : ℚ) + (digitsVal f : ℚ) / 10 ^ f.length) := by
  unfold parseUnsignedChars
  rw [splitOnDot_append i f (allDigits_noDot i hi),
    splitOnDot_noDot f (allDigits_noDot f hf)]
  simp [hne, hi, hf]

theorem parseDecimal_head_digit (c : Char) (rest : List Char)
    (hc : c.isDigit = true) :
    parseDecimal ⟨c :: rest⟩ = parseUnsignedChars (c :: rest) := by
  obtain ⟨-, hminus, hplus⟩ := isDigit_not_special c hc
  show (match c :: rest with
    | '-' :: r => (parseUnsignedChars r).map Neg.neg
    | '+' :: r => parseUnsignedChars r
    | l => parseUnsignedChars l) = parseUnsignedChars (c :: rest)
  split
  · next heq => exact absurd (List.head_eq_of_cons_eq heq) hminus
  · next heq => exact absurd (List.head_eq_of_cons_eq heq) hplus
  · rfl

theorem pySplitDotSpace_ne_nil : ∀ l, pySplitDotSpace l ≠ []
  | [] => by simp [pySplitDotSpace]
  | [c] => by simp [pySplitDotSpace]
  | a :: b :: rest => by
    unfold pySplitDotSpace
    split
    · simp
    · split <;> simp

theorem pySplitDotSpace_head_shape (x : Char) (r t : List Char)
    (ts : List (List Char)) (h : pySplitDotSpace (x :: r) = t :: ts) :
    t = [] ∨ ∃ t0, t = x :: t0 := by
  cases r with
  | nil =>
    simp only [pySplitDotSpace] at h
    exact Or.inr ⟨[], (List.head_eq_of_cons_eq h).symm⟩
  | cons b r' =>
    simp only [pySplitDotSpace] at h
    split at h
    · exact Or.inl (List.head_eq_of_cons_eq h).symm
    · split at h
      · exact Or.inr ⟨[], (List.head_eq_of_cons_eq h).symm⟩
      · next t' ts' heq =>
        exact Or.inr ⟨t', (List.head_eq_of_cons_eq h).symm⟩

theorem hasSep_of_mem_pySplit : ∀ l t, t ∈ pySplitDotSpace l → hasSep t = false
  | [], t, ht => by
    simp [pySplitDotSpace] at ht; subst ht; rfl
  | [c], t, ht => by
    simp [pySplitDotSpace] at ht; subst ht; rfl
  | a :: b :: rest, t, ht => by
    simp only [pySplitDotSpace] at ht
    by_cases hab : a = '.' ∧ b = ' '
    · rw [if_pos hab] at ht
      rcases List.mem_cons.mp ht with h | h
      · subst h; rfl
      · exact hasSep_of_mem_pySplit rest t h
    · rw [if_neg hab] at ht
      rcases hrec : pySplitDotSpace (b :: rest) with - | ⟨t0, ts⟩
      · exact absurd hrec (pySplitDotSpace_ne_nil _)
      · rw [hrec] at ht
        rcases List.mem_cons.mp ht with h | h
        · subst h
          have ht0 : hasSep t0 = false :=
            hasSep_of_mem_pySplit (b :: rest) t0 (hrec ▸ List.mem_cons_self _ _)
          rcases pySplitDotSpace_head_shape b rest t0 ts hrec with h0 | ⟨t0', h0⟩
          · subst h0; rfl
          · subst h0
            show hasSep (a :: b :: t0') = false
            simp only [hasSep]
            rw [if_neg hab]
            exact ht0
        · exact hasSep_of_mem_pySplit (b :: rest) t
            (hrec ▸ List.mem_cons_of_mem _ h)

theorem pySplit_of_not_hasSep : ∀ t, hasSep t = false → pySplitDotSpace t = [t]
  | [], _ => by simp [pySplitDotSpace]
  | [c], _ => by simp [pySplitDotSpace]
  | a :: b :: rest, h => by
    have hab : ¬(a = '.' ∧ b = ' ') := by
      intro hc
      simp [hasSep, hc.1, hc.2] at h
    have h2 : hasSep (b :: rest) = false := by
      simp only [hasSep] at h
      rwa [if_neg hab] at h
    have ih := pySplit_of_not_hasSep (b :: rest) h2
    simp only [pySplitDotSpace]
    rw [if_neg hab, ih]

theorem renameColumn_renamed_fails (c n : String)
    (h : renameColumn c = some n) : renameColumn n = none := by
  unfold renameColumn at h ⊢
  rcases hg : (pySplitDotSpace c.data).get? 1 with - | t
  · rw [hg] at h; simp at h
  · rw [hg] at h
    simp only [Option.map_some', Option.some.injEq] at h
    have hn : n = (⟨t⟩ : String) := h.symm
    subst hn
    have ht : t ∈ pySplitDotSpace c.data := List.get?_mem hg
    have hsep := hasSep_of_mem_pySplit c.data t ht
    have hsplit : pySplitDotSpace t = [t] := pySplit_of_not_hasSep t hsep
    show ((pySplitDotSpace (String.mk t).data).get? 1).map (fun l => (⟨l⟩ : String)) = none
    rw [show (String.mk t).data = t from rfl, hsplit]
    rfl

theorem colsRename_cons_none (n : String) (rest : List String)
    (hn : renameColumn n = none) : colsRename (n :: rest) = none := by
  simp [colsRename, hn]

theorem colsRename_head (c0 : List String) (n : String) (rest : List String)
    (h : colsRename c0 = some (n :: rest)) :
    ∃ c cs, c0 = c :: cs ∧ renameColumn c = some n := by
  cases c0 with
  | nil => simp [colsRename] at h
  | cons c cs =>
    refine ⟨c, cs, rfl, ?_⟩
    unfold colsRename at h
    cases hc : renameColumn c with
    | none => rw [hc] at h; simp at h
    | some b =>
      rw [hc] at h
      cases hrest : colsRename cs with
      | none => rw [hrest] at h; simp at h
      | some bs =>
        rw [hrest] at h
        simp only [Option.some.injEq, List.cons_eq_cons] at h
        rw [h.1]

theorem rowObjs?_keys : ∀ (entries : List (String × Json)) rows,
    rowObjs? entries = some rows → rows.map Prod.fst = entries.map Prod.fst
  | [], rows, h => by
    simp only [rowObjs?, Option.some.injEq] at h
    subst h; rfl
  | (k, v) :: rest, rows, h => by
    cases v with
    | obj o =>
      simp only [rowObjs?] at h
      cases hr : rowObjs? rest with
      | none => rw [hr] at h; simp at h
      | some r =>
        rw [hr] at h
        simp only [Option.map_some', Option.some.injEq] at h
        subst h
        simp [rowObjs?_keys rest r hr]
    | null => simp [rowObjs?] at h
    | str s => simp [rowObjs?] at h
    | num q => simp [rowObjs?] at h

theorem closeChart_keys (f : Frame) (ch : List (String × List (Option ℚ)))
    (h : closeChart f = some ch) : ch.map Prod.fst = f.rows.map Prod.fst := by
  unfold closeChart at h
  split at h
  · simp at h
  · simp only [Option.some.injEq] at h
    subst h
    simp

theorem unionCols_two (k s1 s2 : String) (v1 v2 : Json) (h : s1 ≠ s2) :
    unionCols [(k, [(s1, v1), (s2, v2)])] = [s1, s2] := by
  simp [unionCols, addCol, List.mem_singleton, Ne.symm h]

theorem truthy_obj_ne_nil (l : List (String × Json))
    (h : truthy (.obj l) = true) : l ≠ [] := by
  intro hl; subst hl; simp [truthy] at h

theorem truthy_obj_of_ne_nil (l : List (String × Json)) (h : l ≠ []) :
    truthy (.obj l) = true := by
  cases l with
  | nil => exact absurd rfl h
  | cons p ps => rfl

theorem lookupField_ne_nil (fields : List (String × Json)) (key : String)
    (v : Json) (h : lookupField fields key = some v) : fields ≠ [] := by
  intro hf; rw [hf] at h; simp [lookupField] at h

theorem rowObjs?_mem : ∀ (entries : List (String × Json)) rows,
    rowObjs? entries = some rows → ∀ r ∈ rows, (r.1, Json.obj r.2) ∈ entries
  | [], rows, h => by
    simp only [rowObjs?, Option.some.injEq] at h
    subst h; simp
  | (k, v) :: rest, rows, h => by
    cases v with
    | obj o =>
      simp only [rowObjs?] at h
      cases hr : rowObjs? rest with
      | none => rw [hr] at h; simp at h
      | some r' =>
        rw [hr] at h
        simp only [Option.map_some', Option.some.injEq] at h
        subst h
        intro r hrm
        rcases List.mem_cons.mp hrm with h1 | h1
        · subst h1; exact List.mem_cons_self _ _
        · exact List.mem_cons_of_mem _ (rowObjs?_mem rest r' hr r h1)
    | null => simp [rowObjs?] at h
    | str s => simp [rowObjs?] at h
    | num q => simp [rowObjs?] at h

theorem lookupField_isSome_of_mem {α : Type} (o : List (String × α)) (c : String)
    (h : c ∈ o.map Prod.fst) : (lookupField o c).isSome = true := by
  induction o with
  | nil => simp at h
  | cons p rest ih =>
    by_cases hc : p.1 = c
    · simp [lookupField, hc]
    · simp only [List.map_cons, List.mem_cons] at h
      rcases h with h | h
      · exact absurd h.symm hc
      · simp [lookupField, hc, ih h]

theorem addCol_self_mem (a : List String) (k : String) : k ∈ addCol a k := by
  unfold addCol; split
  · assumption
  · simp

theorem addCol_eq_of_mem (a : List String) (k : String) (h : k ∈ a) :
    addCol a k = a := by simp [addCol, h]

theorem addCol_prefix (a : List String) (k : String) :
    ∃ t, addCol a k = a ++ t := by
  unfold addCol; split
  · exact ⟨[], by simp⟩
  · exact ⟨[k], rfl⟩

theorem mem_of_addCol (a : List String) (k x : String) (h : x ∈ addCol a k) :
    x ∈ a ∨ x = k := by
  unfold addCol at h
  split at h
  · exact Or.inl h
  · rcases List.mem_append.mp h with h2 | h2
    · exact Or.inl h2
    · simp at h2; exact Or.inr h2

theorem foldFields_prefix :
    ∀ (l : List (String × Json)) (acc : List String),
      ∃ t, l.foldl (fun a kv => addCol a kv.1) acc = acc ++ t
  | [], acc => ⟨[], by simp⟩
  | p :: rest, acc => by
    obtain ⟨t1, h1⟩ := addCol_prefix acc p.1
    obtain ⟨t2, h2⟩ := foldFields_prefix rest (addCol acc p.1)
    exact ⟨t1 ++ t2, by rw [List.foldl_cons, h2, h1, List.append_assoc]⟩

theorem foldRows_prefix :
    ∀ (rows : List (String × List (String × Json))) (acc : List String),
      ∃ t, rows.foldl (fun acc r => r.2.foldl (fun a kv => addCol a kv.1) acc) acc
        = acc ++ t
  | [], acc => ⟨[], by simp⟩
  | r :: rest, acc => by
    obtain ⟨t1, h1⟩ := foldFields_prefix r.2 acc
    obtain ⟨t2, h2⟩ :=
      foldRows_prefix rest (r.2.foldl (fun a kv => addCol a kv.1) acc)
    exact ⟨t1 ++ t2, by rw [List.foldl_cons, h2, h1, List.append_assoc]⟩

theorem mem_of_foldFields :
    ∀ (l : List (String × Json)) (acc : List String) (x : String),
      x ∈ l.foldl (fun a kv => addCol a kv.1) acc → x ∈ acc ∨ x ∈ l.map Prod.fst
  | [], _, _, h => Or.inl h
  | p :: rest, acc, x, h => by
    rw [List.foldl_cons] at h
    rcases mem_of_foldFields rest (addCol acc p.1) x h with h1 | h1
    · rcases mem_of_addCol acc p.1 x h1 with h2 | h2
      · exact Or.inl h2
      · exact Or.inr (by simp [h2])
    · exact Or.inr (by simp [h1])

theorem mem_of_foldRows :
    ∀ (rows : List (String × List (String × Json))) (acc : List String) (x : String),
      x ∈ rows.foldl (fun acc r => r.2.foldl (fun a kv => addCol a kv.1) acc) acc →
      x ∈ acc ∨ ∃ r ∈ rows, x ∈ r.2.map Prod.fst
  | [], _, _, h => Or.inl h
  | r :: rest, acc, x, h => by
    rw [List.foldl_cons] at h
    rcases mem_of_foldRows rest _ x h with h1 | h1
    · rcases mem_of_foldFields r.2 acc x h1 with h2 | h2
      · exact Or.inl h2
      · exact Or.inr ⟨r, List.mem_cons_self _ _, h2⟩
    · obtain ⟨q, hq, hxq⟩ := h1
      exact Or.inr ⟨q, List.mem_cons_of_mem _ hq, hxq⟩

theorem mem_of_unionCols (rows : List (String × List (String × Json)))
    (x : String) (h : x ∈ unionCols rows) : ∃ r ∈ rows, x ∈ r.2.map Prod.fst := by
  rcases mem_of_foldRows rows [] x h with h1 | h1
  · simp at h1
  · exact h1

theorem unionCols_cons_head (k c0 : String) (v : Json) (o' : List (String × Json))
    (rows' : List (String × List (String × Json))) :
    ∃ t, unionCols ((k, (c0, v) :: o') :: rows') = c0 :: t := by
  obtain ⟨t1, h1⟩ := foldFields_prefix o' [c0]
  obtain ⟨t2, h2⟩ := foldRows_prefix rows' ([c0] ++ t1)
  refine ⟨t1 ++ t2, ?_⟩
  unfold unionCols
  rw [List.foldl_cons, List.foldl_cons]
  have h0 : addCol ([] : List String) c0 = [c0] := by simp [addCol]
  rw [h0, h1, h2]
  simp

theorem rowsWithCol_nil (c : String) (acc : List String) :
    rowsWithCol c acc [] = acc := rfl

theorem rowsWithCol_cons (c : String) (acc : List String)
    (r : String × List (String × Json))
    (rest : List (String × List (String × Json))) :
    rowsWithCol c acc (r :: rest) =
      rowsWithCol c (if (lookupField r.2 c).isSome then addCol acc r.1 else acc)
        rest := rfl

theorem rowsWithCol_prefix (c : String) :
    ∀ (rows : List (String × List (String × Json))) (acc : List String),
      ∃ t, rowsWithCol c acc rows = acc ++ t
  | [], acc => ⟨[], by simp [rowsWithCol_nil]⟩
  | r :: rest, acc => by
    rw [rowsWithCol_cons]
    have hstep : ∃ t0,
        (if (lookupField r.2 c).isSome then addCol acc r.1 else acc) = acc ++ t0 := by
      split
      · exact addCol_prefix acc r.1
      · exact ⟨[], by simp⟩
    obtain ⟨t0, h0⟩ := hstep
    obtain ⟨t1, h1⟩ := rowsWithCol_prefix c rest
      (if (lookupField r.2 c).isSome then addCol acc r.1 else acc)
    exact ⟨t0 ++ t1, by rw [h1, h0, List.append_assoc]⟩

theorem mem_rowsWithCol (c : String) (r : String × List (String × Json)) :
    ∀ (rows : List (String × List (String × Json))) (acc : List String),
      r ∈ rows → (lookupField r.2 c).isSome = true →
      r.1 ∈ rowsWithCol c acc rows
  | [], _, hmem, _ => absurd hmem (List.not_mem_nil _)
  | q :: rest, acc, hmem, hsome => by
    rw [rowsWithCol_cons]
    rcases List.mem_cons.mp hmem with h | h
    · subst h
      rw [hsome]
      obtain ⟨t, ht⟩ := rowsWithCol_prefix c rest (addCol acc r.1)
      simp only [if_true]
      rw [ht]
      exact List.mem_append_left _ (addCol_self_mem acc r.1)
    · exact mem_rowsWithCol c r rest _ h hsome

theorem rowsWithCol_all (c : String) :
    ∀ (rows : List (String × List (String × Json))) (acc : List String),
      (∀ r ∈ rows, (lookupField r.2 c).isSome = true) →
      (rows.map Prod.fst).Nodup →
      (∀ r ∈ rows, r.1 ∉ acc) →
      rowsWithCol c acc rows = acc ++ rows.map Prod.fst
  | [], acc, _, _, _ => by simp [rowsWithCol_nil]
  | r :: rest, acc, hall, hnd, hdis => by
    rw [rowsWithCol_cons, hall r (List.mem_cons_self _ _)]
    simp only [if_true]
    rw [List.map_cons] at hnd
    have hnd' := List.nodup_cons.mp hnd
    have haddCol : addCol acc r.1 = acc ++ [r.1] := by
      simp [addCol, hdis r (List.mem_cons_self _ _)]
    have ih := rowsWithCol_all c rest (acc ++ [r.1])
      (fun x hx => hall x (List.mem_cons_of_mem _ hx)) hnd'.2
      (fun x hx hmem => by
        rcases List.mem_append.mp hmem with hxa | hxr
        · exact hdis x (List.mem_cons_of_mem _ hx) hxa
        · simp only [List.mem_singleton] at hxr
          exact hnd'.1 (hxr ▸ List.mem_map_of_mem Prod.fst hx))
    rw [haddCol, ih]
    simp

theorem rowsWithCol_saturated (c : String) :
    ∀ (rows : List (String × List (String × Json))) (acc : List String),
      (∀ r ∈ rows, r.1 ∈ acc) → rowsWithCol c acc rows = acc
  | [], _, _ => rfl
  | r :: rest, acc, hall => by
    rw [rowsWithCol_cons]
    have hstep : (if (lookupField r.2 c).isSome then addCol acc r.1 else acc) = acc := by
      split
      · exact addCol_eq_of_mem acc r.1 (hall r (List.mem_cons_self _ _))
      · rfl
    rw [hstep]
    exact rowsWithCol_saturated c rest acc (fun x hx => hall x (List.mem_cons_of_mem _ hx))

theorem foldCols_saturated (rows : List (String × List (String × Json))) :
    ∀ (cs : List String) (acc : List String),
      (∀ r ∈ rows, r.1 ∈ acc) →
      cs.foldl (fun a c => rowsWithCol c a rows) acc = acc
  | [], _, _ => rfl
  | c :: cs', acc, hall => by
    rw [List.foldl_cons, rowsWithCol_saturated c rows acc hall]
    exact foldCols_saturated rows cs' acc hall

theorem indexUnion_eq_keys (c0 : String) (cs : List String)
    (rows : List (String × List (String × Json)))
    (hall : ∀ r ∈ rows, (lookupField r.2 c0).isSome = true)
    (hnd : (rows.map Prod.fst).Nodup) :
    indexUnion (c0 :: cs) rows = rows.map Prod.fst := by
  unfold indexUnion
  rw [List.foldl_cons]
  have h1 : rowsWithCol c0 [] rows = rows.map Prod.fst := by
    simpa using rowsWithCol_all c0 rows [] hall hnd (by simp)
  rw [h1]
  exact foldCols_saturated rows cs _ (fun r hr => List.mem_map_of_mem _ hr)

theorem map_fst_map_pair (l : List String) (g : String → List (Option ℚ)) :
    (l.map (fun k => (k, g k))).map Prod.fst = l := by
  induction l with
  | nil => rfl
  | cons a t ih => simp [ih]

theorem indicatorPayloadNormalize_ok_rows_ne_nil (name : String)
    (entries : List (String × Json)) (f : Frame)
    (h : indicatorPayloadNormalize name entries = .ok f) (hne : entries ≠ []) :
    f.rows ≠ [] := by
  unfold indicatorPayloadNormalize at h
  split at h
  · exact absurd h (by simp)
  · split at h
    · exact absurd h (by simp)
    · next rows heq =>
      split at h
      · next hlen =>
        cases h
        cases hcol : unionCols rows with
        | nil => rw [hcol] at hlen; simp at hlen
        | cons c cs =>
          have hcs : cs = [] := by
            rw [hcol] at hlen
            simpa using hlen
          subst hcs
          have hc : c ∈ unionCols rows := by rw [hcol]; simp
          obtain ⟨r, hr, hcr⟩ := mem_of_unionCols rows c hc
          have hsome := lookupField_isSome_of_mem r.2 c hcr
          have hmem : r.1 ∈ indexUnion [c] rows := by
            unfold indexUnion
            rw [List.foldl_cons, List.foldl_nil]
            exact mem_rowsWithCol c r rows [] hr hsome
          simp only [ne_eq, List.map_eq_nil_iff]
          exact List.ne_nil_of_mem hmem
      · exact absurd h (by simp)
  · split at h
    · cases h
      simp
    · exact absurd h (by simp)

theorem coerce_renderNat (n : ℕ) :
    coerceVal (.str ⟨renderNat n⟩) = some ((n : ℚ)) := by
  obtain ⟨hv, hd, hne⟩ := renderNat_spec n
  show parseDecimal ⟨renderNat n⟩ = some ((n : ℚ))
  cases hr : renderNat n with
  | nil => exact absurd hr hne
  | cons c rest =>
    rw [hr] at hv hd
    have hcd : c.isDigit = true :=
      (List.all_eq_true.mp hd) c (List.mem_cons_self _ _)
    rw [parseDecimal_head_digit c rest hcd,
      parseUnsignedChars_int (c :: rest) (by simp) hd, hv]

theorem coerce_render_dec (n m : ℕ) :
    coerceVal (.str ⟨renderNat n ++ '.' :: renderNat m⟩) =
      some ((n : ℚ) + (m : ℚ) / 10 ^ (renderNat m).length) := by
  obtain ⟨hvn, hdn, hnen⟩ := renderNat_spec n
  obtain ⟨hvm, hdm, -⟩ := renderNat_spec m
  show parseDecimal ⟨renderNat n ++ '.' :: renderNat m⟩ = _
  cases hr : renderNat n with
  | nil => exact absurd hr hnen
  | cons c rest =>
    rw [hr] at hvn hdn
    have hcd : c.isDigit = true :=
      (List.all_eq_true.mp hdn) c (List.mem_cons_self _ _)
    rw [List.cons_append,
      parseDecimal_head_digit c (rest ++ '.' :: renderNat m) hcd,
      ← List.cons_append,
      parseUnsignedChars_dec (c :: rest) (renderNat m) (by simp) hdn hdm,
      hvn, hvm]

/-! ## Claims -/

/-- C7.  Round-trip on `{"2024-01-01": {"4. close": "100.5"}}` with the
prefix-stripping rename of line 102: the TIME_SERIES_DAILY reshaping yields
one row keyed `"2024-01-01"`, one column `"close"`, numeric value `100.5`. -/
theorem c7_roundtrip_time_series :
    tsPayloadNormalize [("2024-01-01", .obj [("4. close", .str "100.5")])] =
      .ok ⟨["close"], [("2024-01-01", [some (100.5 : ℚ)])]⟩ := by
  rw [show (100.5 : ℚ) = 100 + 5 / 10 ^ 1 by norm_num]
  rfl

/-- C1, counterexample.  A rename mapping the two distinct columns
`"a. x"` and `"b. x"` to the same name `"x"` does NOT fail: normalization
returns a table (with the duplicated column label), never an error — the
code has no `ColumnCollision` check at all. -/
theorem c1_collision_counterexample :
    tsPayloadNormalize [("d", .obj [("a. x", .str "1"), ("b. x", .str "2")])] =
      .ok ⟨["x", "x"], [("d", [some (1 : ℚ), some (2 : ℚ)])]⟩ :=
  rfl

/-- C1, amended.  When the line-102 rename maps two distinct source columns
to the same output name, normalization succeeds and produces a table whose
column list repeats that name; no collision error exists in the code. -/
theorem c1_rename_collision_no_error (s1 s2 n k : String) (v1 v2 : Json)
    (hne : s1 ≠ s2) (h1 : renameColumn s1 = some n)
    (h2 : renameColumn s2 = some n) :
    tsPayloadNormalize [(k, .obj [(s1, v1), (s2, v2)])] =
      .ok ⟨[n, n], [(k, [coerceVal v1, coerceVal v2])]⟩ := by
  have hu := unionCols_two k s1 s2 v1 v2 hne
  have hl1 : lookupField [(s1, v1), (s2, v2)] s1 = some v1 := by
    simp [lookupField]
  have hl2 : lookupField [(s1, v1), (s2, v2)] s2 = some v2 := by
    simp [lookupField, hne]
  simp only [tsPayloadNormalize, rowObjs?, Option.map_some']
  rw [hu]
  simp only [colsRename, h1, h2]
  have hidx : indexUnion [s1, s2] [(k, [(s1, v1), (s2, v2)])] = [k] := by
    unfold indexUnion
    rw [List.foldl_cons, List.foldl_cons, List.foldl_nil]
    simp [rowsWithCol_cons, rowsWithCol_nil, hl1, hl2, addCol]
  rw [hidx]
  simp [lookupField, hl1, hl2]
  exact ⟨rfl, by rw [if_neg hne]; rfl⟩

/-- C1, witness for the amended claim at the concrete collision input. -/
theorem c1_rename_collision_no_error_witness :
    tsPayloadNormalize [("d", .obj [("a. x", .str "1"), ("b. x", .str "2")])] =
      .ok ⟨["x", "x"], [("d", [coerceVal (.str "1"), coerceVal (.str "2")])]⟩ :=
  c1_rename_collision_no_error "a. x" "b. x" "x" "d" (.str "1") (.str "2")
    (by decide) rfl rfl

/-- C2, counterexample.  `["close"]` is the column set of a successful
normalization, yet applying the line-102 rename to it fails
(`"close".split('. ')[1]` raises `IndexError`): the rename is neither
idempotent nor total on renamed column sets. -/
theorem c2_idempotence_counterexample :
    tsPayloadNormalize [("2024-01-01", .obj [("4. close", .str "100.5")])] =
      .ok ⟨["close"], [("2024-01-01", [some ((100 : ℚ) + 5 / 10 ^ 1)])]⟩
    ∧ colsRename ["close"] = none :=
  ⟨rfl, rfl⟩

/-- C2, amended.  Re-applying the rename to the column set of any
successful normalization fails whenever that set is nonempty: every renamed
label no longer contains the `'. '` separator, so `split('. ')[1]` raises
instead of being a no-op. -/
theorem c2_rename_not_idempotent (entries : List (String × Json)) (f : Frame)
    (h : tsPayloadNormalize entries = .ok f) (hne : f.cols ≠ []) :
    colsRename f.cols = none := by
  unfold tsPayloadNormalize at h
  split at h
  · cases h
    exact absurd rfl hne
  · split at h
    · exact absurd h (by simp)
    · next rows heq =>
      split at h
      · exact absurd h (by simp)
      · next newCols hcr =>
        have hf : f.cols = newCols := by
          cases h; rfl
        rw [hf] at hne ⊢
        cases newCols with
        | nil => exact absurd rfl hne
        | cons nm rest2 =>
          obtain ⟨c, cs, -, hcn⟩ := colsRename_head _ nm rest2 hcr
          exact colsRename_cons_none nm rest2 (renameColumn_renamed_fails c nm hcn)
  · exact absurd h (by simp)

/-- C2, witness for the amended claim: the column set `["close"]` produced
by a successful normalization re-renames to a failure. -/
theorem c2_rename_not_idempotent_witness :
    colsRename (Frame.mk ["close"]
      [("2024-01-01", [some ((100 : ℚ) + 5 / 10 ^ 1)])]).cols = none :=
  c2_rename_not_idempotent [("2024-01-01", .obj [("4. close", .str "100.5")])]
    ⟨["close"], [("2024-01-01", [some ((100 : ℚ) + 5 / 10 ^ 1)])]⟩ rfl
    (List.cons_ne_nil _ _)

/-- C3, counterexample.  On `{"Global Quote": {"05. price": "150.00"}}` the
GLOBAL_QUOTE branch renders one row — but keyed by the raw field name
`"05. price"`, under the single column `"Value"`, holding the unparsed
string `"150.00"`: there is no prefix-stripping and no numeric coercion in
this branch, so the column is not `"price"` and the cell is not numeric. -/
theorem c3_global_quote_counterexample :
    globalQuoteBranch (.obj [("Global Quote", .obj [("05. price", .str "150.00")])]) =
      .table ⟨["Value"], [("05. price", [.str "150.00"])]⟩ :=
  rfl

/-- C3, amended.  For a response whose `"Global Quote"` value is a nonempty
mapping, the branch renders `pd.DataFrame([quote]).T`: one row per quote
field in source order, keyed by the raw (un-renamed) field name, one column
`"Value"`, and the raw values with no numeric coercion.  At the given input:
exactly one row, keyed `"05. price"`, value the string `"150.00"`. -/
theorem c3_global_quote_raw_table (fields qf : List (String × Json))
    (h : lookupField fields "Global Quote" = some (.obj qf)) (hq : qf ≠ []) :
    globalQuoteBranch (.obj fields) =
      .table ⟨["Value"], qf.map (fun kv => (kv.1, [kv.2]))⟩ := by
  have hfne : fields ≠ [] := by
    intro hf; rw [hf] at h; simp [lookupField] at h
  have htr : truthy (.obj fields) = true := by
    cases fields with
    | nil => exact absurd rfl hfne
    | cons p ps => rfl
  have hqtr : truthy (.obj qf) = true := by
    cases qf with
    | nil => exact absurd rfl hq
    | cons p ps => rfl
  simp only [globalQuoteBranch, htr, h, Option.getD_some, hqtr, if_true]

/-- C3, witness for the amended claim at the concrete quote input. -/
theorem c3_global_quote_raw_table_witness :
    globalQuoteBranch (.obj [("Global Quote", .obj [("05. price", .str "150.00")])]) =
      .table ⟨["Value"],
        [("05. price", Json.str "150.00")].map (fun kv => (kv.1, [kv.2]))⟩ :=
  c3_global_quote_raw_table [("Global Quote", .obj [("05. price", .str "150.00")])]
    [("05. price", .str "150.00")] rfl (List.cons_ne_nil _ _)

/-- C4, counterexample.  An input whose container path does not resolve to
the expected payload can CRASH the script instead of being reported: when
the container key is present but holds a non-mapping value, the
TIME_SERIES_DAILY branch raises an uncaught exception, contradicting
"returns the MissingContainer error ... and does not crash". -/
theorem c4_nonmapping_container_crashes :
    timeSeriesDailyBranch (.obj [("Time Series (Daily)", .str "x")]) = .crash :=
  rfl

/-- C4, amended.  For every nonempty JSON-object response in which the
container key is absent, the branch reports instead of producing a table:
TIME_SERIES_DAILY shows a warning with the raw payload (lines 110–112) and
SMA/RSI show an error with the raw payload (lines 174–176, 203–205), and no
crash occurs; but a present container key holding a truthy non-mapping
value crashes the script rather than being reported. -/
theorem c4_missing_container_reported :
    (∀ fields : List (String × Json), fields ≠ [] →
      lookupField fields timeSeriesDailyKey = none →
      timeSeriesDailyBranch (.obj fields) = .weird (.obj fields))
    ∧ (∀ (name : String) (fields : List (String × Json)), fields ≠ [] →
      lookupField fields (indicatorKey name) = none →
      indicatorBranch name (.obj fields) = .errorShown (.obj fields)) := by
  constructor
  · intro fields hne h
    have htr : truthy (.obj fields) = true := by
      cases fields with
      | nil => exact absurd rfl hne
      | cons p ps => rfl
    simp only [timeSeriesDailyBranch, htr, if_true, h]
  · intro name fields hne h
    have htr : truthy (.obj fields) = true := by
      cases fields with
      | nil => exact absurd rfl hne
      | cons p ps => rfl
    simp only [indicatorBranch, htr, if_true, h, Option.getD_none]
    simp [truthy]

/-- C4, witness for the amended claim at the API error payload. -/
theorem c4_missing_container_reported_witness :
    timeSeriesDailyBranch (.obj [("Error Message", .str "invalid symbol")]) =
      .weird (.obj [("Error Message", .str "invalid symbol")])
    ∧ indicatorBranch "SMA" (.obj [("Error Message", .str "invalid symbol")]) =
      .errorShown (.obj [("Error Message", .str "invalid symbol")]) :=
  ⟨c4_missing_container_reported.1 _ (List.cons_ne_nil _ _) rfl,
   c4_missing_container_reported.2 "SMA" _ (List.cons_ne_nil _ _) rfl⟩

/-- C6, counterexample.  `from_dict(orient='index')` does not give one row
per top-level key in insertion order: a key whose sub-mapping is empty
appears in no column of the nested construction and is dropped, and ragged
rows come out in the column-major first-seen order of the index union.
Here `{"r1": {"4. close": "1"}, "r2": {}}` yields ONE row, and the ragged
three-key input yields rows in the order `r1, r3, r2`, not `r1, r2, r3`. -/
theorem c6_ragged_rows_counterexample :
    tsPayloadNormalize [("r1", .obj [("4. close", .str "1")]), ("r2", .obj [])] =
      .ok ⟨["close"], [("r1", [some (1 : ℚ)])]⟩
    ∧ tsPayloadNormalize
        [("r1", .obj [("1. b", .str "1")]), ("r2", .obj [("2. a", .str "2")]),
         ("r3", .obj [("1. b", .str "3"), ("2. a", .str "4")])] =
      .ok ⟨["b", "a"],
        [("r1", [some (1 : ℚ), none]), ("r3", [some (3 : ℚ), some (4 : ℚ)]),
         ("r2", [none, some (2 : ℚ)])]⟩ :=
  ⟨rfl, rfl⟩

/-- C6, amended.  When every top-level value carries the same nonempty
field set (as every uniform Alpha Vantage time-series or indicator payload
does) and the top-level keys are distinct, normalization produces exactly
one row per top-level key, keys verbatim, in the insertion order of the
source object — for the TIME_SERIES_DAILY and the SMA/RSI reshaping alike.
For ragged inputs this fails: keys with empty sub-mappings are dropped and
rows follow the column-major first-seen union order. -/
theorem c6_uniform_rows_preserve_keys :
    (∀ (entries : List (String × Json)) (f : Frame) (fs : List String),
      (∀ kv ∈ entries, ∃ o, kv.2 = Json.obj o ∧ o.map Prod.fst = fs) →
      fs ≠ [] → (entries.map Prod.fst).Nodup →
      tsPayloadNormalize entries = .ok f →
      f.rows.map Prod.fst = entries.map Prod.fst)
    ∧ (∀ (name : String) (entries : List (String × Json)) (f : Frame)
        (fs : List String),
      (∀ kv ∈ entries, ∃ o, kv.2 = Json.obj o ∧ o.map Prod.fst = fs) →
      fs ≠ [] → (entries.map Prod.fst).Nodup →
      indicatorPayloadNormalize name entries = .ok f →
      f.rows.map Prod.fst = entries.map Prod.fst) := by
  constructor
  · intro entries f fs huni hfs hnd h
    cases entries with
    | nil =>
      simp only [tsPayloadNormalize] at h
      cases h
      rfl
    | cons e rest =>
      obtain ⟨k0, v0⟩ := e
      obtain ⟨o0, hv0, ho0⟩ := huni (k0, v0) (List.mem_cons_self _ _)
      simp only at hv0
      subst hv0
      simp only [tsPayloadNormalize] at h
      split at h
      · exact absurd h (by simp)
      · next rows heq =>
        split at h
        · exact absurd h (by simp)
        · next newCols hcr =>
          cases h
          rw [map_fst_map_pair]
          have hkeys := rowObjs?_keys _ rows heq
          have hrfs : ∀ r ∈ rows, r.2.map Prod.fst = fs := by
            intro r hr
            obtain ⟨o, ho, hofs⟩ := huni (r.1, Json.obj r.2) (rowObjs?_mem _ rows heq r hr)
            simp only [Json.obj.injEq] at ho
            rw [ho]
            exact hofs
          have hndrows : (rows.map Prod.fst).Nodup := by rw [hkeys]; exact hnd
          cases fs with
          | nil => exact absurd rfl hfs
          | cons c0 fs' =>
            cases rows with
            | nil => simp at hkeys
            | cons r0 rows' =>
              obtain ⟨rk, ro⟩ := r0
              have hr0 : ro.map Prod.fst = c0 :: fs' :=
                hrfs (rk, ro) (List.mem_cons_self _ _)
              cases ro with
              | nil => simp at hr0
              | cons p o' =>
                obtain ⟨pc, pv⟩ := p
                rw [List.map_cons] at hr0
                have hpc : pc = c0 := (List.cons_eq_cons.mp hr0).1
                subst hpc
                obtain ⟨t, hcols⟩ := unionCols_cons_head rk pc pv o' rows'
                have hall : ∀ r ∈ (rk, (pc, pv) :: o') :: rows',
                    (lookupField r.2 pc).isSome = true := by
                  intro r hr
                  refine lookupField_isSome_of_mem r.2 pc ?_
                  rw [hrfs r hr]
                  exact List.mem_cons_self _ _
                rw [hcols, indexUnion_eq_keys pc t _ hall hndrows, hkeys]
  · intro name entries f fs huni hfs hnd h
    cases entries with
    | nil => simp [indicatorPayloadNormalize] at h
    | cons e rest =>
      obtain ⟨k0, v0⟩ := e
      obtain ⟨o0, hv0, ho0⟩ := huni (k0, v0) (List.mem_cons_self _ _)
      simp only at hv0
      subst hv0
      simp only [indicatorPayloadNormalize] at h
      split at h
      · exact absurd h (by simp)
      · next rows heq =>
        split at h
        · next hlen =>
          cases h
          rw [map_fst_map_pair]
          have hkeys := rowObjs?_keys _ rows heq
          have hrfs : ∀ r ∈ rows, r.2.map Prod.fst = fs := by
            intro r hr
            obtain ⟨o, ho, hofs⟩ := huni (r.1, Json.obj r.2) (rowObjs?_mem _ rows heq r hr)
            simp only [Json.obj.injEq] at ho
            rw [ho]
            exact hofs
          have hndrows : (rows.map Prod.fst).Nodup := by rw [hkeys]; exact hnd
          cases hcol : unionCols rows with
          | nil => rw [hcol] at hlen; simp at hlen
          | cons c cs =>
            have hcs : cs = [] := by
              rw [hcol] at hlen
              simpa using hlen
            subst hcs
            have hc : c ∈ unionCols rows := by rw [hcol]; simp
            obtain ⟨r1, hr1, hcr1⟩ := mem_of_unionCols rows c hc
            have hcfs : c ∈ fs := by rw [← hrfs r1 hr1]; exact hcr1
            have hall : ∀ r ∈ rows, (lookupField r.2 c).isSome = true := by
              intro r hr
              refine lookupField_isSome_of_mem r.2 c ?_
              rw [hrfs r hr]
              exact hcfs
            rw [indexUnion_eq_keys c [] rows hall hndrows, hkeys]
        · exact absurd h (by simp)

/-- C6, witness for the amended claim: a two-row uniform time-series
payload keeps both keys in insertion order. -/
theorem c6_uniform_rows_preserve_keys_witness :
    (Frame.mk ["close"]
        [("2024-01-02", [some (101 : ℚ)]),
         ("2024-01-01", [some ((100 : ℚ) + 5 / 10 ^ 1)])]).rows.map Prod.fst =
      [("2024-01-02", Json.obj [("4. close", Json.str "101")]),
       ("2024-01-01", Json.obj [("4. close", Json.str "100.5")])].map Prod.fst :=
  c6_uniform_rows_preserve_keys.1
    [("2024-01-02", .obj [("4. close", .str "101")]),
     ("2024-01-01", .obj [("4. close", .str "100.5")])]
    ⟨["close"],
      [("2024-01-02", [some (101 : ℚ)]),
       ("2024-01-01", [some ((100 : ℚ) + 5 / 10 ^ 1)])]⟩
    ["4. close"]
    (by
      intro kv hkv
      rcases List.mem_cons.mp hkv with h | h
      · subst h
        exact ⟨[("4. close", Json.str "101")], rfl, rfl⟩
      · rcases List.mem_cons.mp h with h2 | h2
        · subst h2
          exact ⟨[("4. close", Json.str "100.5")], rfl, rfl⟩
        · exact absurd h2 (List.not_mem_nil _))
    (by simp)
    (by decide)
    rfl

/-- C8.  The API key is resolved from the hosted secret store first, then
from the local file; if neither yields a key the script stops fatally
(`st.stop()`), so no endpoint logic runs at all. -/
theorem c8_api_key_priority :
    (∀ (c l : Option String) (k : String), c = some k →
      resolveApiKey c l = .cloud k)
    ∧ (∀ (l : Option String) (k : String), l = some k →
      resolveApiKey none l = .localFile k)
    ∧ resolveApiKey none none = .fatal
    ∧ (∀ endpoint raw, appRun none none endpoint raw = none) := by
  refine ⟨?_, ?_, rfl, fun _ _ => rfl⟩
  · intro c l k h; subst h; rfl
  · intro l k h; subst h; rfl

/-- C8, witness: cloud key wins over a local key; a lone local key is used;
with neither key the run stops before the TIME_SERIES_DAILY logic. -/
theorem c8_api_key_priority_witness :
    resolveApiKey (some "A") (some "B") = .cloud "A"
    ∧ resolveApiKey none (some "B") = .localFile "B"
    ∧ appRun none none "TIME_SERIES_DAILY" .null = none :=
  ⟨c8_api_key_priority.1 _ (some "B") "A" rfl,
   c8_api_key_priority.2.1 _ "B" rfl,
   c8_api_key_priority.2.2.2 "TIME_SERIES_DAILY" .null⟩

/-- C9.  For GLOBAL_QUOTE, SMA and RSI, a container key present but mapped
to an empty object is treated exactly like a missing container: the branch
shows the error message with the raw payload (`d.get(key, {})` followed by
a truthiness test), and a rendered table is never empty. -/
theorem c9_empty_container_is_error :
    (∀ fields : List (String × Json),
      lookupField fields "Global Quote" = some (.obj []) →
      globalQuoteBranch (.obj fields) = .errorShown (.obj fields))
    ∧ (∀ (name : String) (fields : List (String × Json)),
      lookupField fields (indicatorKey name) = some (.obj []) →
      indicatorBranch name (.obj fields) = .errorShown (.obj fields))
    ∧ (∀ raw t, globalQuoteBranch raw = .table t → t.rows ≠ [])
    ∧ (∀ name raw t ch, indicatorBranch name raw = .shown t ch → t.rows ≠ []) := by
  refine ⟨?_, ?_, ?_, ?_⟩
  · intro fields h
    have htr := truthy_obj_of_ne_nil fields (lookupField_ne_nil _ _ _ h)
    simp only [globalQuoteBranch, htr, if_true, h, Option.getD_some]
    simp [truthy]
  · intro name fields h
    have htr := truthy_obj_of_ne_nil fields (lookupField_ne_nil _ _ _ h)
    simp only [indicatorBranch, htr, if_true, h, Option.getD_some]
    simp [truthy]
  · intro raw t h
    unfold globalQuoteBranch at h
    repeat' split at h
    all_goals try exact GQOut.noConfusion h
    rename_i a fields htr hgq b qf heq
    cases h
    have hqne := truthy_obj_ne_nil qf (heq ▸ hgq)
    simpa using hqne
  · intro name raw t ch h
    unfold indicatorBranch at h
    repeat' split at h
    all_goals try exact IndOut.noConfusion h
    rename_i a fields htr hgq b entries heq c f hok
    cases h
    have hene := truthy_obj_ne_nil entries (heq ▸ hgq)
    have hrne := indicatorPayloadNormalize_ok_rows_ne_nil name entries ch hok hene
    cases hfr : ch.rows with
    | nil => exact absurd hfr hrne
    | cons p l => simp

/-- C9, witness: present-but-empty containers on GLOBAL_QUOTE and RSI take
the error branch. -/
theorem c9_empty_container_is_error_witness :
    globalQuoteBranch (.obj [("Global Quote", .obj [])]) =
      .errorShown (.obj [("Global Quote", .obj [])])
    ∧ indicatorBranch "RSI" (.obj [("Technical Analysis: RSI", .obj [])]) =
      .errorShown (.obj [("Technical Analysis: RSI", .obj [])]) :=
  ⟨c9_empty_container_is_error.1 _ rfl,
   c9_empty_container_is_error.2.1 "RSI" _ rfl⟩

/-- C10.  For TIME_SERIES_DAILY, SMA and RSI the rendered table is
`df.head(20)` — the first at most 20 rows of the normalized frame in source
order — while the accompanying line chart is drawn from every row of the
frame, with no truncation. -/
theorem c10_table_truncated_chart_full :
    (∀ raw t ch, timeSeriesDailyBranch raw = .shown t ch →
      ∃ f, t.cols = f.cols ∧ t.rows = f.rows.take 20 ∧ closeChart f = some ch ∧
        ch.map Prod.fst = f.rows.map Prod.fst)
    ∧ (∀ name raw t ch, indicatorBranch name raw = .shown t ch →
      t.cols = ch.cols ∧ t.rows = ch.rows.take 20) := by
  constructor
  · intro raw t ch h
    unfold timeSeriesDailyBranch at h
    repeat' split at h
    all_goals try exact TSDOut.noConfusion h
    rename_i a fields htr b entries hts c f hok d ch0 hch
    cases h
    exact ⟨f, rfl, rfl, hch, closeChart_keys f ch hch⟩
  · intro name raw t ch h
    unfold indicatorBranch at h
    repeat' split at h
    all_goals try exact IndOut.noConfusion h
    rename_i a fields htr hgq b entries heq c f hok
    cases h
    exact ⟨rfl, rfl⟩

/-- C5.  Numeric coercion is total and deterministic: every decimal digit
string parses back losslessly to its value (also with a fractional part);
`None` and a non-numeric string coerce to the missing marker `none` rather
than raising; and once the shape and rename stages succeed, the coercion
stage can never fail the normalization — it is a total function applied
cell-wise. -/
theorem c5_numeric_coercion_total :
    (∀ n : ℕ, coerceVal (.str ⟨renderNat n⟩) = some ((n : ℚ)))
    ∧ (∀ n m : ℕ, coerceVal (.str ⟨renderNat n ++ '.' :: renderNat m⟩) =
        some ((n : ℚ) + (m : ℚ) / 10 ^ (renderNat m).length))
    ∧ coerceVal .null = none
    ∧ coerceVal (.str "invalid symbol") = none
    ∧ (∀ entries rows newCols, rowObjs? entries = some rows →
        colsRename (unionCols rows) = some newCols →
        ∃ f, tsPayloadNormalize entries = .ok f)
    ∧ (∀ (name : String) entries rows, rowObjs? entries = some rows →
        (unionCols rows).length = 1 →
        ∃ f, indicatorPayloadNormalize name entries = .ok f) := by
  refine ⟨coerce_renderNat, coerce_render_dec, rfl, rfl, ?_, ?_⟩
  · intro entries rows newCols h1 h2
    cases entries with
    | nil => exact ⟨⟨[], []⟩, rfl⟩
    | cons e rest =>
      obtain ⟨k0, v0⟩ := e
      cases v0 with
      | obj o0 =>
        refine ⟨⟨newCols, (indexUnion (unionCols rows) rows).map (fun k =>
          (k, (unionCols rows).map (fun c =>
            coerceCell ((lookupField rows k).bind (fun r => lookupField r c)))))⟩, ?_⟩
        simp only [tsPayloadNormalize, h1, h2]
      | null => simp [rowObjs?] at h1
      | str s => simp [rowObjs?] at h1
      | num q => simp [rowObjs?] at h1
  · intro name entries rows h1 h2
    cases entries with
    | nil =>
      simp only [rowObjs?, Option.some.injEq] at h1
      subst h1
      simp [unionCols] at h2
    | cons e rest =>
      obtain ⟨k0, v0⟩ := e
      cases v0 with
      | obj o0 =>
        refine ⟨⟨[name], (indexUnion (unionCols rows) rows).map (fun k =>
          (k, (unionCols rows).map (fun c =>
            coerceCell ((lookupField rows k).bind (fun r => lookupField r c)))))⟩, ?_⟩
        simp only [indicatorPayloadNormalize, h1, h2, if_true]
      | null => simp [rowObjs?] at h1
      | str s => simp [rowObjs?] at h1
      | num q => simp [rowObjs?] at h1

/-- C5, witness: lossless parse of the digit string of 150; coercion-stage
success on concrete TIME_SERIES_DAILY and SMA payloads containing a
decimal string. -/
theorem c5_numeric_coercion_total_witness :
    coerceVal (.str ⟨renderNat 150⟩) = some ((150 : ℚ))
    ∧ (∃ f, tsPayloadNormalize
        [("2024-01-01", .obj [("4. close", .str "100.5")])] = .ok f)
    ∧ (∃ f, indicatorPayloadNormalize "SMA"
        [("2024-01-01", .obj [("SMA", .str "20.5")])] = .ok f) :=
  ⟨c5_numeric_coercion_total.1 150,
   c5_numeric_coercion_total.2.2.2.2.1
     [("2024-01-01", .obj [("4. close", .str "100.5")])]
     [("2024-01-01", [("4. close", Json.str "100.5")])] ["close"] rfl rfl,
   c5_numeric_coercion_total.2.2.2.2.2 "SMA"
     [("2024-01-01", .obj [("SMA", .str "20.5")])]
     [("2024-01-01", [("SMA", Json.str "20.5")])] rfl rfl⟩

/-- C10, witness at one-row TIME_SERIES_DAILY and SMA inputs. -/
theorem c10_table_truncated_chart_full_witness :
    (∃ f, (Frame.mk ["close"]
        [("2024-01-01", [some ((100 : ℚ) + 5 / 10 ^ 1)])]).cols = f.cols ∧
      (Frame.mk ["close"]
        [("2024-01-01", [some ((100 : ℚ) + 5 / 10 ^ 1)])]).rows = f.rows.take 20 ∧
      closeChart f = some [("2024-01-01", [some ((100 : ℚ) + 5 / 10 ^ 1)])] ∧
      ([("2024-01-01", [some ((100 : ℚ) + 5 / 10 ^ 1)])] :
        List (String × List (Option ℚ))).map Prod.fst =
        f.rows.map Prod.fst)
    ∧ ((Frame.mk ["SMA"] [("2024-01-01", [some ((20 : ℚ) + 5 / 10 ^ 1)])]).cols =
        (Frame.mk ["SMA"] [("2024-01-01", [some ((20 : ℚ) + 5 / 10 ^ 1)])]).cols ∧
      (Frame.mk ["SMA"] [("2024-01-01", [some ((20 : ℚ) + 5 / 10 ^ 1)])]).rows =
        (Frame.mk ["SMA"] [("2024-01-01", [some ((20 : ℚ) + 5 / 10 ^ 1)])]).rows.take 20) :=
  ⟨c10_table_truncated_chart_full.1
      (.obj [("Time Series (Daily)",
        .obj [("2024-01-01", .obj [("4. close", .str "100.5")])])])
      ⟨["close"], [("2024-01-01", [some ((100 : ℚ) + 5 / 10 ^ 1)])]⟩
      [("2024-01-01", [some ((100 : ℚ) + 5 / 10 ^ 1)])] rfl,
   c10_table_truncated_chart_full.2 "SMA"
      (.obj [("Technical Analysis: SMA",
        .obj [("2024-01-01", .obj [("SMA", .str "20.5")])])])
      ⟨["SMA"], [("2024-01-01", [some ((20 : ℚ) + 5 / 10 ^ 1)])]⟩
      ⟨["SMA"], [("2024-01-01", [some ((20 : ℚ) + 5 / 10 ^ 1)])]⟩ rfl⟩

end FinanceDashboard
